import Mathlib

/-!
Verification of the retry-based batch login runner of the
`pytest_framework` repository.

The repository drives browser logins from a spreadsheet of
(channel, email, order) rows.  The core pattern, repeated across test
files, is: attempt a login-and-verify per row, collect failures into a
retry list, retry once, and log second-pass failures.

We embed the control flow of the relevant source files shallowly:

* `Auto_Test.test_login` of `bak/RC_login_resolution.py`
  (`RC.firstPassAux` / `RC.secondPassAux` / `RC.test_login`);
* `Auto_Test.test_login` of `old_version.py` (`OldVersion.firstPassAux`,
  which additionally writes an info-level log line on each first-pass
  failure, and appends to a module-level retry list);
* `Auto_Test.testlogin` of `Test_Case/RC/login_test_resolve.py`
  (`Resolve.pass1` / `Resolve.pass2` / `Resolve.testlogin`), whose
  behaviour depends on a mode selector string `gray` read from standard
  input in `setUp`;
* `TestRCLogin.test_login` of `Test_Case/RC/test_rc_login.py`
  (`Pytest.pytestCase` / `Pytest.runAux`), a pytest-parametrized variant
  where every record is its own test case;
* `read_data` of `common/data_tool.py` (`DataTool.read_data`).

The browser is an external collaborator, so the outcome of each attempt
is supplied by an oracle: a function from the iteration index of the
pass to an `AttemptResult` (or, for the resolve variant, two `Bool`
oracles for the two stages of each attempt).  Observable side effects
(navigations, log lines, console prints, session acquisition and
shutdown) are recorded as a trace of `Event`s.
-/

/-- One login record: a row (channel, email, order) of the spreadsheet. -/
structure Record where
  channel : String
  email : String
  order : String
deriving DecidableEq, Repr

/-- Outcome of one login-and-verify attempt, as decided by the browser
environment.  The four failure constructors correspond to the ways the
body of the `try` block can raise: `driver.get` raising a WebDriver
error, the page-title assertion failing, an element lookup raising
`NoSuchElementException` inside the login helper, and the final
confirmation-text assertion failing. -/
inductive AttemptResult where
  | ok
  | navError
  | titleMismatch
  | elemNotFound
  | verifyMismatch
deriving DecidableEq, Repr

/-- Does the attempt succeed (no exception reaches the `except` clause)? -/
def AttemptResult.isOk : AttemptResult → Bool
  | .ok => true
  | _ => false

/-- Observable side effects of a run.  `nav r` is the `driver.get` call
made while processing record `r` (exactly one per attempt); `acquire`
and `quit` are `webdriver.Chrome(...)` and `driver.quit()`; `printed`
is a console `print`. -/
inductive Event where
  | nav (r : Record)
  | logInfo (msg : String)
  | logError (msg : String)
  | printed (msg : String)
  | acquire
  | quit
deriving DecidableEq, Repr

/-- The error-log line written by the second pass of
`bak/RC_login_resolution.py` (line 54) and of `login_test_resolve.py`
(line 72): `"twice_fail : " + " " + channel + " " + "FAIL —— " +
"data : " + email + " " + order`. -/
def twiceFailMsg (r : Record) : String :=
  "twice_fail : " ++ " " ++ r.channel ++ " " ++ "FAIL —— " ++ "data : "
    ++ r.email ++ " " ++ r.order

/-- Sample record A of the spec's scenario section. -/
def recA : Record := ⟨"web", "a@x.com", "111"⟩

/-- Sample record B of the spec's scenario section. -/
def recB : Record := ⟨"web", "b@x.com", "222"⟩

namespace RC

/-- First pass of `Auto_Test.test_login` (`bak/RC_login_resolution.py`,
lines 32-43): for each record, navigate, assert the title, log in and
assert the confirmation text; on any exception append the record to
`data_twice` and continue.  No log line is written in this pass (the
`log.info` calls are commented out in the source).  `res1 i` is the
environment's outcome for the iteration at index `i`; the result is the
(trace, data_twice) pair. -/
def firstPassAux (res1 : Nat → AttemptResult) :
    List Record → Nat → List Event × List Record
  | [], _ => ([], [])
  | r :: rs, i =>
    let rest := firstPassAux res1 rs (i + 1)
    if (res1 i).isOk then
      (Event.nav r :: rest.1, rest.2)
    else
      (Event.nav r :: rest.1, r :: rest.2)

/-- Second pass of `Auto_Test.test_login` (lines 45-56): re-attempt each
deferred record once; on failure write one error-level log line with the
record's channel, email and order, and continue. -/
def secondPassAux (res2 : Nat → AttemptResult) :
    List Record → Nat → List Event
  | [], _ => []
  | r :: rs, i =>
    (if (res2 i).isOk then
      [Event.nav r]
    else
      [Event.nav r, Event.logError (twiceFailMsg r)])
      ++ secondPassAux res2 rs (i + 1)

/-- The whole `test_login` body: first pass over `data`, then (unless
`data_twice` is empty, in which case the method returns — behaviourally
the same as running the second loop on the empty list) the second pass
over `data_twice`.  Returns the event trace and the final retry queue. -/
def test_login (res1 res2 : Nat → AttemptResult) (data : List Record) :
    List Event × List Record :=
  let p1 := firstPassAux res1 data 0
  (p1.1 ++ secondPassAux res2 p1.2 0, p1.2)

/-- Events of `setUp` relevant to the claims: `log.info('start')`, then
acquisition of the single Chrome session. -/
def setUpEvents : List Event :=
  [Event.logInfo "start", Event.acquire]

/-- Events of `tearDown`: `driver.quit()`, then `log.info('finish')`. -/
def tearDownEvents : List Event :=
  [Event.quit, Event.logInfo "finish"]

/-- Semantics of `unittest.TestCase.run` for a case whose `setUp`
succeeded: the events the test body emitted (a prefix of the full body
trace if the body raised an unhandled exception), followed
unconditionally by `tearDown`. -/
def runTestCase (bodyEvents : List Event) : List Event :=
  setUpEvents ++ bodyEvents ++ tearDownEvents

/-- Number of login-and-verify attempts made for record `r` in trace
`t`: each attempt performs exactly one `driver.get`, so attempts are
counted by `nav r` events. -/
def attempts (r : Record) (t : List Event) : Nat :=
  t.count (Event.nav r)

end RC

namespace OldVersion

/-- The info-log line `old_version.py` writes on a first-pass failure
(line 41): `self.name+" "+channel + " " + "FAIL —— "+"data : "+ email+" "+order`,
with `self.name = 'test_log_resolution'`. -/
def oldFailMsg (name : String) (r : Record) : String :=
  name ++ " " ++ r.channel ++ " " ++ "FAIL —— " ++ "data : "
    ++ r.email ++ " " ++ r.order

/-- The error-log line of `old_version.py`'s second pass (line 55):
unlike `RC_login_resolution.py`, it includes `self.name`. -/
def oldTwiceFailMsg (name : String) (r : Record) : String :=
  "twice_fail : " ++ name ++ " " ++ r.channel ++ " " ++ "FAIL —— "
    ++ "data : " ++ r.email ++ " " ++ r.order

/-- First pass of `Auto_Test.test_login` in `old_version.py`
(lines 33-44): identical to the `RC_login_resolution.py` first pass
except that each failure additionally writes an info-level log line
before the record is appended to the (module-level) `data_twice` list. -/
def firstPassAux (res1 : Nat → AttemptResult) :
    List Record → Nat → List Event × List Record
  | [], _ => ([], [])
  | r :: rs, i =>
    let rest := firstPassAux res1 rs (i + 1)
    if (res1 i).isOk then
      (Event.nav r :: rest.1, rest.2)
    else
      (Event.nav r :: Event.logInfo (oldFailMsg "test_log_resolution" r)
        :: rest.1, r :: rest.2)

/-- Second pass of `old_version.py` (lines 46-57). -/
def secondPassAux (res2 : Nat → AttemptResult) :
    List Record → Nat → List Event
  | [], _ => []
  | r :: rs, i =>
    (if (res2 i).isOk then
      [Event.nav r]
    else
      [Event.nav r, Event.logError (oldTwiceFailMsg "test_log_resolution" r)])
      ++ secondPassAux res2 rs (i + 1)

/-- `old_version.py`'s `test_login`.  `data_twice` is a module-level
list, so the second pass runs over whatever it already contained
(`queue0`) followed by this run's first-pass failures. -/
def test_login (res1 res2 : Nat → AttemptResult) (data queue0 : List Record) :
    List Event × List Record :=
  let p1 := firstPassAux res1 data 0
  let q := queue0 ++ p1.2
  (p1.1 ++ secondPassAux res2 q 0, q)

end OldVersion

namespace Resolve

/-- First pass of `Auto_Test.testlogin` in
`Test_Case/RC/login_test_resolve.py` (lines 34-54).  Each iteration has
two stages inside the `try`:

* the pre-mode stage — `driver.get`, the title assertion,
  `resolve_login`, `time.sleep(3)` — whose success is `pre1 i`;
* the mode check — if `gray == "0"` (resp. `"1"`) look up the
  confirmation element and assert on its text, with success `mode1 i`;
  for any other `gray` value, print "illegal input" and `break`.

An exception in either stage is caught: the record is appended to
`data_twice` and the loop continues.  The `break` is not an exception:
the record that reaches it is neither queued nor completed, and the
remaining records are never visited. -/
def pass1 (gray : String) (pre1 mode1 : Nat → Bool) :
    List Record → Nat → List Event × List Record
  | [], _ => ([], [])
  | r :: rs, i =>
    if pre1 i then
      if gray = "0" then
        let rest := pass1 gray pre1 mode1 rs (i + 1)
        if mode1 i then (Event.nav r :: rest.1, rest.2)
        else (Event.nav r :: rest.1, r :: rest.2)
      else if gray = "1" then
        let rest := pass1 gray pre1 mode1 rs (i + 1)
        if mode1 i then (Event.nav r :: rest.1, rest.2)
        else (Event.nav r :: rest.1, r :: rest.2)
      else
        ([Event.nav r, Event.printed "illegal input"], [])
    else
      let rest := pass1 gray pre1 mode1 rs (i + 1)
      (Event.nav r :: rest.1, r :: rest.2)

/-- Second pass of `testlogin` (lines 56-74).  Same two stages, but the
mode check has no `else` branch: with an illegal `gray` value nothing
after the pre-mode stage runs, so the iteration can only fail (and log)
if the pre-mode stage fails. -/
def pass2 (gray : String) (pre2 mode2 : Nat → Bool) :
    List Record → Nat → List Event
  | [], _ => []
  | r :: rs, i =>
    (if pre2 i then
      if gray = "0" then
        if mode2 i then [Event.nav r]
        else [Event.nav r, Event.logError (twiceFailMsg r)]
      else if gray = "1" then
        if mode2 i then [Event.nav r]
        else [Event.nav r, Event.logError (twiceFailMsg r)]
      else [Event.nav r]
    else [Event.nav r, Event.logError (twiceFailMsg r)])
      ++ pass2 gray pre2 mode2 rs (i + 1)

/-- The whole `testlogin` body. -/
def testlogin (gray : String) (pre1 mode1 pre2 mode2 : Nat → Bool)
    (data : List Record) : List Event × List Record :=
  let p1 := pass1 gray pre1 mode1 data 0
  (p1.1 ++ pass2 gray pre2 mode2 p1.2 0, p1.2)

/-- Collapse the two staged oracles of one resolve-variant iteration
into a single `AttemptResult`, as seen by the catch-all `except`. -/
def combine (pre mode : Nat → Bool) : Nat → AttemptResult := fun i =>
  if pre i then (if mode i then .ok else .verifyMismatch) else .navError

end Resolve

namespace Resolve

/-- View the single pre-mode oracle of an illegal-selector retry pass as
an `AttemptResult` oracle: with an illegal `gray` nothing after the
pre-mode stage runs, so an iteration fails exactly when its pre-mode
stage fails. -/
def preOnly (pre : Nat → Bool) : Nat → AttemptResult := fun i =>
  if pre i then .ok else .navError

end Resolve

namespace Pytest

/-- Result of one parametrized pytest test case. -/
inductive CaseResult where
  | passed
  | failed
deriving DecidableEq, Repr

/-- Is the case a failure? -/
def CaseResult.isFailed : CaseResult → Bool
  | .failed => true
  | .passed => false

/-- The error label `test_rc_login.py` interpolates into its log line,
by exception class: `断言失败` for `AssertionError` (title or
confirmation assertion), `元素未找到` for `NoSuchElementException`, and
`其他异常` for anything else (e.g. a navigation error). -/
def kindLabel : AttemptResult → String
  | .ok => ""
  | .navError => "其他异常"
  | .titleMismatch => "断言失败"
  | .elemNotFound => "元素未找到"
  | .verifyMismatch => "断言失败"

/-- The error-log line of `TestRCLogin.test_login`
(`Test_Case/RC/test_rc_login.py`, lines 77/84/92):
`f"{channel} FAIL —— data : {email} {order}, error: <label>"`. -/
def rcFailMsg (r : Record) (res : AttemptResult) : String :=
  r.channel ++ " FAIL —— data : " ++ r.email ++ " " ++ r.order
    ++ ", error: " ++ kindLabel res

/-- One parametrized test case of `TestRCLogin.test_login`: the
`setup_and_teardown` fixture acquires a fresh Chrome session, the body
navigates and logs in, any exception is logged at error level and
re-raised as `AssertionError` (failing this one case), and the fixture
code after `yield` quits the session unconditionally. -/
def pytestCase (r : Record) (res : AttemptResult) : List Event × CaseResult :=
  if res.isOk then
    ([Event.acquire, Event.nav r, Event.quit], .passed)
  else
    ([Event.acquire, Event.nav r, Event.logError (rcFailMsg r res),
      Event.quit], .failed)

/-- The pytest session over the parametrized cases: every record of the
data table is collected as its own test case and run in order,
regardless of earlier failures (no `-x` / `maxfail` option is used
anywhere in the repository).  Returns the combined trace and the
per-case verdict list. -/
def runAux (res : Nat → AttemptResult) :
    List Record → Nat → List Event × List (Record × CaseResult)
  | [], _ => ([], [])
  | r :: rs, i =>
    let c := pytestCase r (res i)
    let rest := runAux res rs (i + 1)
    (c.1 ++ rest.1, (r, c.2) :: rest.2)

/-- The pytest process exit signal: the session is marked failed when at
least one collected case failed. -/
def sessionVerdict (results : List (Record × CaseResult)) : CaseResult :=
  if results.any (fun p => p.2.isFailed) then .failed else .passed

end Pytest

namespace DataTool

/-- An in-memory spreadsheet: named worksheets, each a list of rows
(the first row is the header). -/
structure Workbook where
  sheets : List (String × List (List String))
deriving Repr

/-- `workbook[sheet_name]`: `some` rows when the worksheet exists,
`none` when the lookup would raise `KeyError`. -/
def lookupSheet (wb : Workbook) (sheet_name : String) :
    Option (List (List String)) :=
  (wb.sheets.find? (fun p => p.1 == sheet_name)).map Prod.snd

/-- The console message `read_data` prints when the worksheet name is
not found (`common/data_tool.py`, line 18). -/
def sheetMissingMsg (sheet_name : String) : String :=
  "工作表 \x27" ++ sheet_name ++ "\x27 不存在，请检查工作表名称是否正确。"

/-- `read_data` of `common/data_tool.py`.  `fs` models the filesystem
(`some` workbook when the file exists).  `openpyxl.load_workbook` is
called before the `try` block, so a missing file raises
(`Except.error`); only the `KeyError` of a missing worksheet is caught,
printed, and converted into the empty record set.  Rows are read from
the second row on (`min_row=2`).  The result carries the returned rows
and the list of printed console messages. -/
def read_data (fs : String → Option Workbook) (file_path sheet_name : String) :
    Except String (List (List String) × List String) :=
  match fs file_path with
  | none => Except.error "FileNotFoundError"
  | some wb =>
    match lookupSheet wb sheet_name with
    | some sheet => Except.ok (sheet.drop 1, [])
    | none => Except.ok ([], [sheetMissingMsg sheet_name])

/-- Did `read_data` return normally? -/
def isOkResult : Except String (List (List String) × List String) → Bool
  | .ok _ => true
  | .error _ => false

end DataTool

namespace RC

theorem firstPassAux_trace (res1 : Nat → AttemptResult) (l : List Record) :
    ∀ i, (firstPassAux res1 l i).1 = l.map Event.nav := by
  induction l with
  | nil => intro i; rfl
  | cons r rs ih =>
    intro i
    by_cases h : (res1 i).isOk <;> simp [firstPassAux, h, ih]

theorem firstPassAux_queue_sublist (res1 : Nat → AttemptResult) (l : List Record) :
    ∀ i, (firstPassAux res1 l i).2.Sublist l := by
  induction l with
  | nil => intro i; exact List.Sublist.refl []
  | cons r rs ih =>
    intro i
    by_cases h : (res1 i).isOk
    · simpa [firstPassAux, h] using (ih (i+1)).cons r
    · simpa [firstPassAux, h] using (ih (i+1)).cons₂ r

theorem firstPassAux_queue_count (res1 : Nat → AttemptResult) (l : List Record)
    (hnd : l.Nodup) :
    ∀ (i j : Nat) (h : j < l.length),
      (firstPassAux res1 l i).2.count (l.get ⟨j, h⟩)
        = if (res1 (i + j)).isOk then 0 else 1 := by
  induction l with
  | nil => intro i j h; exact absurd h (Nat.not_lt_zero j)
  | cons r rs ih =>
    intro i j h
    rcases List.nodup_cons.mp hnd with ⟨hr, hrs⟩
    have hq0 : (firstPassAux res1 rs (i+1)).2.count r = 0 := by
      rw [List.count_eq_zero]
      intro hmem
      exact hr ((firstPassAux_queue_sublist res1 rs (i+1)).subset hmem)
    cases j with
    | zero =>
      by_cases hok : (res1 i).isOk <;>
        simp [firstPassAux, hok, List.count_cons, hq0]
    | succ j' =>
      have hlt : j' < rs.length := Nat.lt_of_succ_lt_succ h
      have ihx := ih hrs (i+1) j' hlt
      have harith : i + (j' + 1) = i + 1 + j' := by omega
      have hget : (r :: rs).get ⟨j'+1, h⟩ = rs.get ⟨j', hlt⟩ := rfl
      have hne : (r == rs.get ⟨j', hlt⟩) = false := by
        refine beq_eq_false_iff_ne.mpr ?_
        intro he
        exact hr (by rw [he]; exact List.get_mem rs j' hlt)
      rw [hget, harith]
      by_cases hok : (res1 i).isOk
      · rw [show (firstPassAux res1 (r::rs) i).2 = (firstPassAux res1 rs (i+1)).2 from by
          simp [firstPassAux, hok]]
        exact ihx
      · rw [show (firstPassAux res1 (r::rs) i).2 = r :: (firstPassAux res1 rs (i+1)).2 from by
          simp [firstPassAux, hok]]
        rw [List.count_cons, hne]
        simpa using ihx

theorem secondPassAux_count_nav (res2 : Nat → AttemptResult) (r : Record)
    (q : List Record) : ∀ i,
    (secondPassAux res2 q i).count (Event.nav r) = q.count r := by
  induction q with
  | nil => intro i; rfl
  | cons r' rs ih =>
    intro i
    by_cases h : (res2 i).isOk <;>
      simp [secondPassAux, h, List.count_cons, List.count_append, ih,
        Nat.add_comm]

theorem secondPassAux_no_logInfo (res2 : Nat → AttemptResult) (q : List Record)
    (m : String) : ∀ i, Event.logInfo m ∉ secondPassAux res2 q i := by
  induction q with
  | nil => intro i; simp [secondPassAux]
  | cons r' rs ih =>
    intro i
    by_cases h : (res2 i).isOk <;> simp [secondPassAux, h, ih]

theorem secondPassAux_logError_mem (res2 : Nat → AttemptResult) (q : List Record)
    (m : String) : ∀ i, Event.logError m ∈ secondPassAux res2 q i →
    ∃ (j : Nat) (h : j < q.length),
      m = twiceFailMsg (q.get ⟨j, h⟩) ∧ (res2 (i + j)).isOk = false := by
  induction q with
  | nil => intro i h; simp [secondPassAux] at h
  | cons r rs ih =>
    intro i hm
    by_cases hok : (res2 i).isOk
    · simp [secondPassAux, hok] at hm
      obtain ⟨j, hj, hmsg, hres⟩ := ih (i+1) hm
      refine ⟨j+1, Nat.succ_lt_succ hj, hmsg, ?_⟩
      rw [show i + (j+1) = i+1+j from by omega]
      exact hres
    · simp [secondPassAux, hok] at hm
      rcases hm with hm | hm
      · refine ⟨0, Nat.succ_pos _, ?_, ?_⟩
        · simpa using hm
        · simpa using hok
      · obtain ⟨j, hj, hmsg, hres⟩ := ih (i+1) hm
        refine ⟨j+1, Nat.succ_lt_succ hj, hmsg, ?_⟩
        rw [show i + (j+1) = i+1+j from by omega]
        exact hres

theorem secondPassAux_logError_count (res2 : Nat → AttemptResult)
    (q : List Record) (hnd : (q.map twiceFailMsg).Nodup) :
    ∀ (i j : Nat) (h : j < q.length),
      (secondPassAux res2 q i).count (Event.logError (twiceFailMsg (q.get ⟨j, h⟩)))
        = if (res2 (i + j)).isOk then 0 else 1 := by
  induction q with
  | nil => intro i j h; exact absurd h (Nat.not_lt_zero j)
  | cons r rs ih =>
    intro i j h
    rw [List.map_cons, List.nodup_cons] at hnd
    rcases hnd with ⟨hr, hrs⟩
    have hq0 : ∀ i', (secondPassAux res2 rs i').count
        (Event.logError (twiceFailMsg r)) = 0 := by
      intro i'
      rw [List.count_eq_zero]
      intro hmem
      obtain ⟨j', hj', hmsg, -⟩ := secondPassAux_logError_mem res2 rs _ i' hmem
      refine hr ?_
      rw [hmsg]
      exact List.mem_map.mpr ⟨rs.get ⟨j', hj'⟩, List.get_mem rs j' hj', rfl⟩
    cases j with
    | zero =>
      by_cases hok : (res2 i).isOk <;>
        simp [secondPassAux, hok, List.count_cons, List.count_append, hq0]
    | succ j' =>
      have hlt : j' < rs.length := Nat.lt_of_succ_lt_succ h
      have ihx := ih hrs (i+1) j' hlt
      have harith : i + (j' + 1) = i + 1 + j' := by omega
      have hget : (r :: rs).get ⟨j'+1, h⟩ = rs.get ⟨j', hlt⟩ := rfl
      have hne : twiceFailMsg r ≠ twiceFailMsg (rs.get ⟨j', hlt⟩) := by
        intro hmm
        refine hr ?_
        rw [hmm]
        exact List.mem_map.mpr ⟨rs.get ⟨j', hlt⟩, List.get_mem rs j' hlt, rfl⟩
      rw [hget, harith]
      by_cases hok : (res2 i).isOk
      · rw [show secondPassAux res2 (r::rs) i
            = [Event.nav r] ++ secondPassAux res2 rs (i+1) from by
          simp [secondPassAux, hok]]
        rw [List.count_append, ihx]
        simp
      · rw [show secondPassAux res2 (r::rs) i
            = [Event.nav r, Event.logError (twiceFailMsg r)]
              ++ secondPassAux res2 rs (i+1) from by
          simp [secondPassAux, hok]]
        rw [List.count_append, ihx]
        have hcnt : List.count (Event.logError (twiceFailMsg (rs.get ⟨j', hlt⟩)))
            [Event.nav r, Event.logError (twiceFailMsg r)] = 0 := by
          simp only [List.count_cons, List.count_nil, beq_iff_eq,
            Event.logError.injEq]
          simp only [reduceCtorEq, if_false]
          rw [if_neg hne]
        rw [hcnt]
        simp

end RC

namespace OldVersion

theorem firstPassAux_logs_failure (res1 : Nat → AttemptResult)
    (l : List Record) :
    ∀ (i j : Nat) (h : j < l.length), (res1 (i + j)).isOk = false →
      Event.logInfo (oldFailMsg "test_log_resolution" (l.get ⟨j, h⟩))
        ∈ (firstPassAux res1 l i).1 := by
  induction l with
  | nil => intro i j h; exact absurd h (Nat.not_lt_zero j)
  | cons r rs ih =>
    intro i j h hfail
    cases j with
    | zero =>
      have hok : ¬(res1 i).isOk = true := by simpa using hfail
      simp [firstPassAux, hok]
    | succ j' =>
      have hlt : j' < rs.length := Nat.lt_of_succ_lt_succ h
      have hfail' : (res1 (i + 1 + j')).isOk = false := by
        rw [show i + 1 + j' = i + (j' + 1) from by omega]
        exact hfail
      have hmem := ih (i+1) j' hlt hfail'
      by_cases hok : (res1 i).isOk
      · rw [show (firstPassAux res1 (r::rs) i).1
            = Event.nav r :: (firstPassAux res1 rs (i+1)).1 from by
          simp [firstPassAux, hok]]
        exact List.mem_cons_of_mem _ hmem
      · rw [show (firstPassAux res1 (r::rs) i).1
            = Event.nav r :: Event.logInfo (oldFailMsg "test_log_resolution" r)
              :: (firstPassAux res1 rs (i+1)).1 from by
          simp [firstPassAux, hok]]
        exact List.mem_cons_of_mem _ (List.mem_cons_of_mem _ hmem)

end OldVersion

namespace Resolve

theorem combine_isOk (pre mode : Nat → Bool) (i : Nat) :
    (combine pre mode i).isOk = (pre i && mode i) := by
  by_cases hp : pre i <;> by_cases hm : mode i <;>
    simp [combine, hp, hm, AttemptResult.isOk]

/-- With a legal mode selector, the resolve first pass is the
`RC_login_resolution` first pass run on the combined oracle. -/
theorem pass1_legal (gray : String) (pre1 mode1 : Nat → Bool)
    (hg : gray = "0" ∨ gray = "1") (l : List Record) :
    ∀ i, pass1 gray pre1 mode1 l i
      = RC.firstPassAux (combine pre1 mode1) l i := by
  have h10 : ¬ (("1" : String) = "0") := by decide
  rcases hg with hg | hg <;> subst hg <;>
    (induction l with
     | nil => intro i; rfl
     | cons r rs ih =>
       intro i
       by_cases hp : pre1 i <;> by_cases hm : mode1 i <;>
         simp [pass1, RC.firstPassAux, combine, hp, hm,
           AttemptResult.isOk, ih, h10])

/-- With a legal mode selector, the resolve second pass is the
`RC_login_resolution` second pass run on the combined oracle. -/
theorem pass2_legal (gray : String) (pre2 mode2 : Nat → Bool)
    (hg : gray = "0" ∨ gray = "1") (l : List Record) :
    ∀ i, pass2 gray pre2 mode2 l i
      = RC.secondPassAux (combine pre2 mode2) l i := by
  have h10 : ¬ (("1" : String) = "0") := by decide
  rcases hg with hg | hg <;> subst hg <;>
    (induction l with
     | nil => intro i; rfl
     | cons r rs ih =>
       intro i
       by_cases hp : pre2 i <;> by_cases hm : mode2 i <;>
         simp [pass2, RC.secondPassAux, combine, hp, hm,
           AttemptResult.isOk, ih, h10])

/-- With a legal mode selector the whole `testlogin` is the
`RC_login_resolution` runner on the combined oracles. -/
theorem testlogin_legal (gray : String) (pre1 mode1 pre2 mode2 : Nat → Bool)
    (hg : gray = "0" ∨ gray = "1") (data : List Record) :
    testlogin gray pre1 mode1 pre2 mode2 data
      = RC.test_login (combine pre1 mode1) (combine pre2 mode2) data := by
  simp only [testlogin, RC.test_login, pass1_legal gray pre1 mode1 hg,
    pass2_legal gray pre2 mode2 hg]

/-- With an illegal mode selector the retry pass never reaches a mode
check: it behaves like the `RC_login_resolution` second pass driven by
the pre-mode oracle alone. -/
theorem pass2_illegal (gray : String) (pre2 mode2 : Nat → Bool)
    (hg0 : gray ≠ "0") (hg1 : gray ≠ "1") (l : List Record) :
    ∀ i, pass2 gray pre2 mode2 l i
      = RC.secondPassAux (preOnly pre2) l i := by
  induction l with
  | nil => intro i; rfl
  | cons r rs ih =>
    intro i
    by_cases hp : pre2 i <;>
      simp [pass2, RC.secondPassAux, preOnly, hp, hg0, hg1,
        AttemptResult.isOk, ih]

/-- With an illegal mode selector, the first pass stops — without
queueing — at the first record whose pre-mode stage succeeds, after
printing "illegal input"; earlier records (whose pre-mode stage failed)
are queued, later records are never visited. -/
theorem pass1_illegal_break (gray : String) (pre1 mode1 : Nat → Bool)
    (hg0 : gray ≠ "0") (hg1 : gray ≠ "1") (l : List Record) :
    ∀ (i k : Nat) (hk : k < l.length), pre1 (i + k) = true →
      (∀ j, j < k → pre1 (i + j) = false) →
      (pass1 gray pre1 mode1 l i).1
          = (l.take (k+1)).map Event.nav ++ [Event.printed "illegal input"] ∧
        (pass1 gray pre1 mode1 l i).2 = l.take k := by
  induction l with
  | nil => intro i k hk; exact absurd hk (Nat.not_lt_zero k)
  | cons r rs ih =>
    intro i k hk hpre hbefore
    cases k with
    | zero =>
      have hp : pre1 i = true := by simpa using hpre
      constructor <;> simp [pass1, hp, hg0, hg1]
    | succ k' =>
      have hp : pre1 i = false := by
        have := hbefore 0 (Nat.succ_pos k')
        simpa using this
      have hk' : k' < rs.length := Nat.lt_of_succ_lt_succ hk
      have hpre' : pre1 (i + 1 + k') = true := by
        rw [show i + 1 + k' = i + (k' + 1) from by omega]
        exact hpre
      have hbefore' : ∀ j, j < k' → pre1 (i + 1 + j) = false := by
        intro j hj
        rw [show i + 1 + j = i + (j + 1) from by omega]
        exact hbefore (j+1) (Nat.succ_lt_succ hj)
      obtain ⟨ht, hq⟩ := ih (i+1) k' hk' hpre' hbefore'
      constructor <;> simp [pass1, hp, ht, hq]

/-- With an illegal mode selector, if no record's pre-mode stage ever
succeeds, the first pass visits every record once and queues all of
them (the `break` is never reached). -/
theorem pass1_illegal_allfail (gray : String) (pre1 mode1 : Nat → Bool)
    (l : List Record) :
    ∀ i, (∀ j, j < l.length → pre1 (i + j) = false) →
      (pass1 gray pre1 mode1 l i).1 = l.map Event.nav ∧
      (pass1 gray pre1 mode1 l i).2 = l := by
  induction l with
  | nil => intro i _; exact ⟨rfl, rfl⟩
  | cons r rs ih =>
    intro i hall
    have hp : pre1 i = false := by simpa using hall 0 (Nat.succ_pos _)
    have hall' : ∀ j, j < rs.length → pre1 (i + 1 + j) = false := by
      intro j hj
      rw [show i + 1 + j = i + (j + 1) from by omega]
      exact hall (j+1) (Nat.succ_lt_succ hj)
    obtain ⟨ht, hq⟩ := ih (i+1) hall'
    constructor <;> simp [pass1, hp, ht, hq]

end Resolve

namespace Pytest

theorem runAux_results (res : Nat → AttemptResult) (l : List Record) :
    ∀ i, (runAux res l i).2
      = (l.enumFrom i).map
          (fun p => (p.2, if (res p.1).isOk then CaseResult.passed
            else CaseResult.failed)) := by
  induction l with
  | nil => intro i; rfl
  | cons r rs ih =>
    intro i
    by_cases h : (res i).isOk <;>
      simp [runAux, pytestCase, h, List.enumFrom_cons, ih]

theorem runAux_nav (res : Nat → AttemptResult) (l : List Record) :
    ∀ (i j : Nat) (h : j < l.length),
      Event.nav (l.get ⟨j, h⟩) ∈ (runAux res l i).1 := by
  induction l with
  | nil => intro i j h; exact absurd h (Nat.not_lt_zero j)
  | cons r rs ih =>
    intro i j h
    cases j with
    | zero =>
      by_cases hok : (res i).isOk <;>
        simp [runAux, pytestCase, hok]
    | succ j' =>
      have hlt : j' < rs.length := Nat.lt_of_succ_lt_succ h
      have hmem := ih (i+1) j' hlt
      by_cases hok : (res i).isOk <;>
        simp [runAux, pytestCase, hok] <;>
        exact Or.inr hmem

theorem runAux_any_failed (res : Nat → AttemptResult) (l : List Record) :
    ∀ i, ((runAux res l i).2.any (fun p => p.2.isFailed) = true
      ↔ ∃ j, j < l.length ∧ (res (i + j)).isOk = false) := by
  induction l with
  | nil =>
    intro i
    simp [runAux]
  | cons r rs ih =>
    intro i
    by_cases hok : (res i).isOk
    · rw [show (runAux res (r::rs) i).2
          = (r, CaseResult.passed) :: (runAux res rs (i+1)).2 from by
        simp [runAux, pytestCase, hok]]
      rw [List.any_cons]
      simp only [show ((r, CaseResult.passed) : Record × Pytest.CaseResult).2.isFailed
        = false from rfl, Bool.false_or]
      rw [ih (i+1)]
      constructor
      · rintro ⟨j, hj, hres⟩
        exact ⟨j+1, Nat.succ_lt_succ hj, by
          rw [show i + (j+1) = i+1+j from by omega]; exact hres⟩
      · rintro ⟨j, hj, hres⟩
        cases j with
        | zero =>
          exact absurd hres (by simp [hok])
        | succ j' =>
          refine ⟨j', Nat.lt_of_succ_lt_succ hj, ?_⟩
          rw [show i + 1 + j' = i + (j' + 1) from by omega]
          exact hres
    · rw [show (runAux res (r::rs) i).2
          = (r, CaseResult.failed) :: (runAux res rs (i+1)).2 from by
        simp [runAux, pytestCase, hok]]
      rw [List.any_cons]
      simp only [show ((r, CaseResult.failed) : Record × Pytest.CaseResult).2.isFailed
        = true from rfl, Bool.true_or]
      constructor
      · intro _
        exact ⟨0, Nat.succ_pos _, by simpa using hok⟩
      · intro _
        trivial

end Pytest

theorem count_nav_map (r : Record) (l : List Record) :
    (l.map Event.nav).count (Event.nav r) = l.count r := by
  induction l with
  | nil => rfl
  | cons x xs ih => simp [List.count_cons, ih]

theorem logError_not_mem_map_nav (m : String) (l : List Record) :
    Event.logError m ∉ l.map Event.nav := by
  simp

theorem logInfo_not_mem_map_nav (m : String) (l : List Record) :
    Event.logInfo m ∉ l.map Event.nav := by
  simp

namespace RC

theorem test_login_trace (res1 res2 : Nat → AttemptResult) (data : List Record) :
    (test_login res1 res2 data).1
      = data.map Event.nav
        ++ secondPassAux res2 (firstPassAux res1 data 0).2 0 := by
  show (firstPassAux res1 data 0).1 ++ _ = _
  rw [firstPassAux_trace]

theorem test_login_queue (res1 res2 : Nat → AttemptResult) (data : List Record) :
    (test_login res1 res2 data).2 = (firstPassAux res1 data 0).2 := rfl

theorem attempts_test_login (res1 res2 : Nat → AttemptResult)
    (data : List Record) (hnd : data.Nodup) (j : Nat) (h : j < data.length) :
    attempts (data.get ⟨j, h⟩) (test_login res1 res2 data).1
      = if (res1 j).isOk then 1 else 2 := by
  unfold attempts
  rw [test_login_trace, List.count_append, count_nav_map,
    secondPassAux_count_nav,
    List.count_eq_one_of_mem hnd (List.get_mem data j h)]
  have hq := firstPassAux_queue_count res1 data hnd 0 j h
  rw [Nat.zero_add] at hq
  rw [hq]
  by_cases hok : (res1 j).isOk <;> simp [hok]

end RC

/-- **C1** (corrected).  In the non-interactive two-pass runner
(`bak/RC_login_resolution.py`), every input record is attempted exactly
once when its first-pass attempt succeeds and exactly twice when it
fails — hence at least once and at most twice, with the second attempt
occurring only after a first-pass failure.  The same holds for the
interactive variant (`login_test_resolve.py`) provided the mode selector
read from standard input is `"0"` or `"1"`; with any other selector the
first pass can `break`, leaving records unattempted (see the
counterexample). -/
theorem C1_attempt_bounds :
    (∀ (res1 res2 : Nat → AttemptResult) (data : List Record),
      data.Nodup → ∀ (j : Nat) (h : j < data.length),
        RC.attempts (data.get ⟨j, h⟩) (RC.test_login res1 res2 data).1
          = if (res1 j).isOk then 1 else 2) ∧
    (∀ (gray : String) (pre1 mode1 pre2 mode2 : Nat → Bool)
        (data : List Record), (gray = "0" ∨ gray = "1") → data.Nodup →
      ∀ (j : Nat) (h : j < data.length),
        RC.attempts (data.get ⟨j, h⟩)
          (Resolve.testlogin gray pre1 mode1 pre2 mode2 data).1
          = if pre1 j && mode1 j then 1 else 2) := by
  constructor
  · exact fun res1 res2 data hnd j h =>
      RC.attempts_test_login res1 res2 data hnd j h
  · intro gray pre1 mode1 pre2 mode2 data hg hnd j h
    rw [Resolve.testlogin_legal gray pre1 mode1 pre2 mode2 hg data]
    rw [RC.attempts_test_login _ _ data hnd j h, Resolve.combine_isOk]

/-- **C1** counterexample: in the interactive variant with the illegal
mode selector `"2"`, the first record's attempt reaches the mode check,
`"illegal input"` is printed and the loop breaks, so the second record
of the input set is never attempted — the claim's "at least once" fails
on this input. -/
theorem C1_counterexample :
    recB ∈ [recA, recB] ∧
    RC.attempts recB
      (Resolve.testlogin "2" (fun _ => true) (fun _ => true)
        (fun _ => true) (fun _ => true) [recA, recB]).1 = 0 := by
  constructor
  · simp
  · rfl

/-- **C1** witness: concrete instances of both conjuncts. -/
theorem C1_witness :
    RC.attempts recA (RC.test_login (fun _ => AttemptResult.ok)
        (fun _ => AttemptResult.ok) [recA]).1 = 1 ∧
    RC.attempts recA (Resolve.testlogin "0" (fun _ => true) (fun _ => true)
        (fun _ => true) (fun _ => true) [recA]).1 = 1 := by
  constructor
  · have h := C1_attempt_bounds.1 (fun _ => AttemptResult.ok)
      (fun _ => AttemptResult.ok) [recA] (by simp) 0 (by decide)
    simpa [AttemptResult.isOk] using h
  · have h := C1_attempt_bounds.2 "0" (fun _ => true) (fun _ => true)
      (fun _ => true) (fun _ => true) [recA] (Or.inl rfl) (by simp) 0
      (by decide)
    simpa using h

/-- **C3** (confirmed).  After the first pass of
`bak/RC_login_resolution.py`, the retry queue is a subsequence of the
input (first-failure order), contains each record of the input exactly
once if its first-pass attempt failed and not at all if it succeeded,
and a record that succeeds on pass 1 is attempted exactly once over the
whole run. -/
theorem C3_retry_queue :
    ∀ (res1 res2 : Nat → AttemptResult) (data : List Record), data.Nodup →
      ((RC.test_login res1 res2 data).2.Sublist data) ∧
      (∀ (j : Nat) (h : j < data.length),
        (RC.test_login res1 res2 data).2.count (data.get ⟨j, h⟩)
          = if (res1 j).isOk then 0 else 1) ∧
      (∀ (j : Nat) (h : j < data.length), (res1 j).isOk = true →
        RC.attempts (data.get ⟨j, h⟩) (RC.test_login res1 res2 data).1 = 1) := by
  intro res1 res2 data hnd
  refine ⟨?_, ?_, ?_⟩
  · rw [RC.test_login_queue]
    exact RC.firstPassAux_queue_sublist res1 data 0
  · intro j h
    rw [RC.test_login_queue]
    have hq := RC.firstPassAux_queue_count res1 data hnd 0 j h
    rw [Nat.zero_add] at hq
    exact hq
  · intro j h hok
    rw [RC.attempts_test_login res1 res2 data hnd j h, if_pos hok]

/-- **C3** witness: with one record whose first-pass attempt fails, the
retry queue holds it exactly once. -/
theorem C3_witness :
    (RC.test_login (fun _ => AttemptResult.verifyMismatch)
        (fun _ => AttemptResult.ok) [recB]).2.count recB = 1 := by
  have h := (C3_retry_queue (fun _ => AttemptResult.verifyMismatch)
    (fun _ => AttemptResult.ok) [recB] (by simp)).2.1 0 (by decide)
  simpa [AttemptResult.isOk] using h

/-- **C5** (confirmed).  On an empty input record set the runner of
`bak/RC_login_resolution.py` emits no events at all in the test body —
in particular zero browser navigations — its retry queue stays empty,
and the full test-case run is exactly `setUp` followed by `tearDown`,
returning normally. -/
theorem C5_empty_input :
    ∀ res1 res2 : Nat → AttemptResult,
      (RC.test_login res1 res2 []).1 = [] ∧
      (RC.test_login res1 res2 []).2 = [] ∧
      RC.runTestCase (RC.test_login res1 res2 []).1
        = RC.setUpEvents ++ RC.tearDownEvents ∧
      ∀ r : Record, Event.nav r ∉ RC.runTestCase (RC.test_login res1 res2 []).1 := by
  intro res1 res2
  refine ⟨rfl, rfl, rfl, ?_⟩
  intro r
  show Event.nav r ∉ RC.runTestCase []
  simp [RC.runTestCase, RC.setUpEvents, RC.tearDownEvents]

/-- **C2** counterexample: in `old_version.py` a first-pass failure IS
logged — with one failing record, the first pass writes an info-level
log line for it — refuting the claim's "no log entry is written for a
first-pass failure in any variant". -/
theorem C2_counterexample :
    Event.logInfo (OldVersion.oldFailMsg "test_log_resolution" recB)
      ∈ (OldVersion.firstPassAux (fun _ => AttemptResult.verifyMismatch)
          [recB] 0).1 := by
  simp [OldVersion.firstPassAux, AttemptResult.isOk]

/-- **C2** (corrected).  During the first pass of
`bak/RC_login_resolution.py` every failure is caught: the first-pass
trace is exactly one navigation per record (the loop continues past
failures and writes no log line of any level), and a failing record is
appended to the retry queue exactly once.  The claim's "in any variant"
is false, however: `old_version.py` writes an info-level log line for
each first-pass failure. -/
theorem C2_first_pass_behaviour :
    (∀ (res1 : Nat → AttemptResult) (l : List Record) (i : Nat),
      (RC.firstPassAux res1 l i).1 = l.map Event.nav) ∧
    (∀ (res1 : Nat → AttemptResult) (l : List Record), l.Nodup →
      ∀ (j : Nat) (h : j < l.length),
        (RC.firstPassAux res1 l 0).2.count (l.get ⟨j, h⟩)
          = if (res1 j).isOk then 0 else 1) ∧
    (∀ (res1 : Nat → AttemptResult) (l : List Record) (j : Nat)
        (h : j < l.length), (res1 j).isOk = false →
      Event.logInfo (OldVersion.oldFailMsg "test_log_resolution" (l.get ⟨j, h⟩))
        ∈ (OldVersion.firstPassAux res1 l 0).1) := by
  refine ⟨?_, ?_, ?_⟩
  · exact fun res1 l i => RC.firstPassAux_trace res1 l i
  · intro res1 l hnd j h
    have hq := RC.firstPassAux_queue_count res1 l hnd 0 j h
    rw [Nat.zero_add] at hq
    exact hq
  · intro res1 l j h hfail
    refine OldVersion.firstPassAux_logs_failure res1 l 0 j h ?_
    rw [Nat.zero_add]
    exact hfail

/-- **C2** witness: concrete instances of all three conjuncts. -/
theorem C2_witness :
    (RC.firstPassAux (fun _ => AttemptResult.verifyMismatch) [recA] 0).1
      = [Event.nav recA] ∧
    (RC.firstPassAux (fun _ => AttemptResult.verifyMismatch)
        [recA] 0).2.count recA = 1 ∧
    Event.logInfo (OldVersion.oldFailMsg "test_log_resolution" recA)
      ∈ (OldVersion.firstPassAux (fun _ => AttemptResult.verifyMismatch)
          [recA] 0).1 := by
  refine ⟨?_, ?_, ?_⟩
  · simpa using C2_first_pass_behaviour.1
      (fun _ => AttemptResult.verifyMismatch) [recA] 0
  · have h := C2_first_pass_behaviour.2.1
      (fun _ => AttemptResult.verifyMismatch) [recA] (by simp) 0 (by decide)
    simpa [AttemptResult.isOk] using h
  · have h := C2_first_pass_behaviour.2.2
      (fun _ => AttemptResult.verifyMismatch) [recA] 0 (by decide) rfl
    simpa using h

/-- **C4** (confirmed).  In `bak/RC_login_resolution.py` a record that
fails on both passes produces exactly one log line, at error level,
whose message is the concatenation of fixed text with the record's
channel, email (identifier) and order (secret); the record is attempted
exactly twice over the whole run, i.e. dropped with no further retry.
(The hypotheses place the record at position `j` of the input and at
position `jq` of the retry queue, with both attempts failing.) -/
theorem C4_terminal_log :
    ∀ (res1 res2 : Nat → AttemptResult) (data : List Record),
      data.Nodup → (data.map twiceFailMsg).Nodup →
      ∀ (j : Nat) (h : j < data.length), (res1 j).isOk = false →
      ∀ (jq : Nat) (hq : jq < (RC.test_login res1 res2 data).2.length),
        (RC.test_login res1 res2 data).2.get ⟨jq, hq⟩ = data.get ⟨j, h⟩ →
        (res2 jq).isOk = false →
        ((RC.test_login res1 res2 data).1.count
            (Event.logError (twiceFailMsg (data.get ⟨j, h⟩))) = 1) ∧
        (∃ s1 s2 s3 : String,
          twiceFailMsg (data.get ⟨j, h⟩)
            = s1 ++ (data.get ⟨j, h⟩).channel ++ s2 ++ (data.get ⟨j, h⟩).email
              ++ s3 ++ (data.get ⟨j, h⟩).order) ∧
        RC.attempts (data.get ⟨j, h⟩) (RC.test_login res1 res2 data).1 = 2 := by
  intro res1 res2 data hnd hmsgs j h hfail1 jq hq hget hfail2
  have hqsub := RC.firstPassAux_queue_sublist res1 data 0
  have hqmsgnd : ((RC.firstPassAux res1 data 0).2.map twiceFailMsg).Nodup :=
    List.Nodup.sublist (List.Sublist.map twiceFailMsg hqsub) hmsgs
  refine ⟨?_, ?_, ?_⟩
  · rw [RC.test_login_trace, List.count_append,
      List.count_eq_zero.mpr (logError_not_mem_map_nav _ _)]
    have hcnt := RC.secondPassAux_logError_count res2 _ hqmsgnd 0 jq hq
    rw [Nat.zero_add] at hcnt
    have hmsg_eq : twiceFailMsg ((RC.firstPassAux res1 data 0).2.get ⟨jq, hq⟩)
        = twiceFailMsg (data.get ⟨j, h⟩) := congrArg twiceFailMsg hget
    rw [hmsg_eq] at hcnt
    rw [hcnt, if_neg (by simp [hfail2])]
  · refine ⟨"twice_fail : " ++ " ", " " ++ "FAIL —— " ++ "data : ", " ", ?_⟩
    simp [twiceFailMsg, String.append_assoc]
  · rw [RC.attempts_test_login res1 res2 data hnd j h,
      if_neg (by simp [hfail1])]

/-- **C4** witness: one record failing both passes yields exactly one
error-level log line and exactly two attempts. -/
theorem C4_witness :
    ((RC.test_login (fun _ => AttemptResult.verifyMismatch)
        (fun _ => AttemptResult.elemNotFound) [recB]).1.count
      (Event.logError (twiceFailMsg recB)) = 1) ∧
    RC.attempts recB (RC.test_login (fun _ => AttemptResult.verifyMismatch)
        (fun _ => AttemptResult.elemNotFound) [recB]).1 = 2 := by
  have h := C4_terminal_log (fun _ => AttemptResult.verifyMismatch)
    (fun _ => AttemptResult.elemNotFound) [recB] (by simp) (by simp)
    0 (by decide) rfl 0 (by decide) rfl rfl
  exact ⟨by simpa using h.1, by simpa using h.2.2⟩

/-- **C6** counterexample: when the spreadsheet file is missing,
`read_data` raises (`openpyxl.load_workbook` runs outside the `try`
block), instead of reporting to the console and returning an empty
record set as the claim states for every data-source error. -/
theorem C6_counterexample :
    DataTool.read_data (fun _ => none) "登陆数据.xlsx" "RC渠道登陆数据"
        = Except.error "FileNotFoundError" ∧
    DataTool.isOkResult
      (DataTool.read_data (fun _ => none) "登陆数据.xlsx" "RC渠道登陆数据")
        = false := by
  exact ⟨rfl, rfl⟩

/-- **C6** (corrected).  `read_data` catches only the missing-worksheet
error (`KeyError`): it prints the console message and returns an empty
record set without raising.  A missing spreadsheet file is not caught —
`load_workbook` runs before the `try` block — so the run crashes. -/
theorem C6_read_data_behaviour :
    (∀ (fs : String → Option DataTool.Workbook) (fp sn : String)
        (wb : DataTool.Workbook), fs fp = some wb →
      DataTool.lookupSheet wb sn = none →
      DataTool.read_data fs fp sn
        = Except.ok ([], [DataTool.sheetMissingMsg sn])) ∧
    (∀ (fs : String → Option DataTool.Workbook) (fp sn : String),
      fs fp = none →
      DataTool.read_data fs fp sn = Except.error "FileNotFoundError") := by
  constructor
  · intro fs fp sn wb hfs hsheet
    simp [DataTool.read_data, hfs, hsheet]
  · intro fs fp sn hfs
    simp [DataTool.read_data, hfs]

/-- **C6** witness: a workbook without the requested worksheet yields
the empty record set plus the printed notice; a missing file yields the
error. -/
theorem C6_witness :
    DataTool.read_data
        (fun p => if p = "登陆数据.xlsx"
          then some (DataTool.Workbook.mk [("Sheet1", [])]) else none)
        "登陆数据.xlsx" "RC渠道登陆数据"
      = Except.ok ([], [DataTool.sheetMissingMsg "RC渠道登陆数据"]) ∧
    DataTool.read_data (fun _ => none) "a.xlsx" "s"
      = Except.error "FileNotFoundError" := by
  constructor
  · exact C6_read_data_behaviour.1 _ "登陆数据.xlsx" "RC渠道登陆数据"
      (DataTool.Workbook.mk [("Sheet1", [])]) (by simp) rfl
  · exact C6_read_data_behaviour.2 (fun _ => none) "a.xlsx" "s" rfl

namespace RC

theorem secondPassAux_events (res2 : Nat → AttemptResult) (q : List Record) :
    ∀ i e, e ∈ secondPassAux res2 q i →
      (∃ r, e = Event.nav r) ∨ (∃ m, e = Event.logError m) := by
  induction q with
  | nil => intro i e he; simp [secondPassAux] at he
  | cons r rs ih =>
    intro i e he
    by_cases hok : (res2 i).isOk
    · simp [secondPassAux, hok] at he
      rcases he with he | he
      · exact Or.inl ⟨r, he⟩
      · exact ih (i+1) e he
    · simp [secondPassAux, hok] at he
      rcases he with he | he | he
      · exact Or.inl ⟨r, he⟩
      · exact Or.inr ⟨twiceFailMsg r, he⟩
      · exact ih (i+1) e he

theorem secondPassAux_all_ok (res2 : Nat → AttemptResult) (q : List Record) :
    ∀ i, (∀ j, j < q.length → (res2 (i + j)).isOk = true) →
      secondPassAux res2 q i = q.map Event.nav := by
  induction q with
  | nil => intro i _; rfl
  | cons r rs ih =>
    intro i hall
    have hok : (res2 i).isOk = true := by
      simpa using hall 0 (Nat.succ_pos _)
    have hall' : ∀ j, j < rs.length → (res2 (i + 1 + j)).isOk = true := by
      intro j hj
      rw [show i + 1 + j = i + (j + 1) from by omega]
      exact hall (j+1) (Nat.succ_lt_succ hj)
    simp [secondPassAux, hok, ih (i+1) hall']

theorem test_login_body_events (res1 res2 : Nat → AttemptResult)
    (data : List Record) :
    ∀ e ∈ (test_login res1 res2 data).1,
      (∃ r, e = Event.nav r) ∨ (∃ m, e = Event.logError m) := by
  intro e he
  rw [test_login_trace] at he
  rcases List.mem_append.mp he with he | he
  · obtain ⟨r, -, hr⟩ := List.mem_map.mp he
    exact Or.inl ⟨r, hr.symm⟩
  · exact secondPassAux_events res2 _ 0 e he

end RC

/-- **C7** counterexample: `Test_Case/RC/test_rc_login.py` parametrizes
`test_login` over the records, making each record its own pytest case.
With two records where the first one's assertion fails, the second
record is still attempted and the verdicts are reported per record —
the batch is not aborted at the first unhandled assertion failure, so
the claim is false of this code. -/
theorem C7_counterexample :
    ((Pytest.runAux
        (fun i => if i = 0 then AttemptResult.verifyMismatch else .ok)
        [recA, recB] 0).2
      = [(recA, Pytest.CaseResult.failed), (recB, Pytest.CaseResult.passed)]) ∧
    Event.nav recB ∈ (Pytest.runAux
        (fun i => if i = 0 then AttemptResult.verifyMismatch else .ok)
        [recA, recB] 0).1 := by
  constructor
  · rfl
  · simp [Pytest.runAux, Pytest.pytestCase, AttemptResult.isOk]

/-- **C7** (corrected).  In the fail-fast reporting variant
(`test_rc_login.py`) an unhandled assertion failure is re-raised inside
the failing record's own parametrized test case, failing that single
case; pytest then continues with the remaining cases, so every record
is attempted regardless of earlier failures, pass/fail is reported per
record, and the run as a whole is marked failed exactly when at least
one record's case failed. -/
theorem C7_per_record_reporting :
    ∀ (res : Nat → AttemptResult) (data : List Record),
      ((Pytest.runAux res data 0).2
        = (data.enumFrom 0).map (fun p =>
            (p.2, if (res p.1).isOk then Pytest.CaseResult.passed
              else Pytest.CaseResult.failed))) ∧
      (∀ (j : Nat) (h : j < data.length),
        Event.nav (data.get ⟨j, h⟩) ∈ (Pytest.runAux res data 0).1) ∧
      (Pytest.sessionVerdict (Pytest.runAux res data 0).2
          = Pytest.CaseResult.failed
        ↔ ∃ j, j < data.length ∧ (res j).isOk = false) := by
  intro res data
  refine ⟨Pytest.runAux_results res data 0,
    fun j h => Pytest.runAux_nav res data 0 j h, ?_⟩
  have hiff := Pytest.runAux_any_failed res data 0
  unfold Pytest.sessionVerdict
  by_cases hany : ((Pytest.runAux res data 0).2.any fun p => p.2.isFailed) = true
  · rw [if_pos hany]
    have hex := hiff.mp hany
    simp only [Nat.zero_add] at hex
    exact ⟨fun _ => hex, fun _ => rfl⟩
  · rw [if_neg hany]
    constructor
    · intro hv
      exact Pytest.CaseResult.noConfusion hv
    · intro hex
      refine absurd (hiff.mpr ?_) hany
      obtain ⟨j, hj, hres⟩ := hex
      exact ⟨j, hj, by simpa using hres⟩

/-- **C7** witness: a record of a singleton input is attempted. -/
theorem C7_witness :
    Event.nav recA ∈ (Pytest.runAux (fun _ => AttemptResult.ok) [recA] 0).1 := by
  have h := (C7_per_record_reporting (fun _ => AttemptResult.ok) [recA]).2.1
    0 (by decide)
  simpa using h

/-- **C8** (confirmed).  In `bak/RC_login_resolution.py` no log line is
written for a verified record: the body trace contains no info-level
line at all, every error-level line belongs to a retry-queue record
whose second attempt failed, and a record that succeeds on the first
pass — or on the retry pass — has no error line in the trace.
(Messages are assumed pairwise distinct across records, which holds for
distinct well-formed rows.) -/
theorem C8_no_success_logging :
    ∀ (res1 res2 : Nat → AttemptResult) (data : List Record),
      data.Nodup → (data.map twiceFailMsg).Nodup →
      (∀ m, Event.logInfo m ∉ (RC.test_login res1 res2 data).1) ∧
      (∀ m, Event.logError m ∈ (RC.test_login res1 res2 data).1 →
        ∃ (jq : Nat) (hjq : jq < (RC.test_login res1 res2 data).2.length),
          m = twiceFailMsg ((RC.test_login res1 res2 data).2.get ⟨jq, hjq⟩) ∧
          (res2 jq).isOk = false) ∧
      (∀ (j : Nat) (h : j < data.length), (res1 j).isOk = true →
        Event.logError (twiceFailMsg (data.get ⟨j, h⟩))
          ∉ (RC.test_login res1 res2 data).1) ∧
      (∀ (jq : Nat) (hjq : jq < (RC.test_login res1 res2 data).2.length),
        (res2 jq).isOk = true →
        Event.logError
            (twiceFailMsg ((RC.test_login res1 res2 data).2.get ⟨jq, hjq⟩))
          ∉ (RC.test_login res1 res2 data).1) := by
  intro res1 res2 data hnd hmsgs
  have hqsub := RC.firstPassAux_queue_sublist res1 data 0
  have hqnd : (RC.firstPassAux res1 data 0).2.Nodup :=
    List.Nodup.sublist hqsub hnd
  have hqmsgnd : ((RC.firstPassAux res1 data 0).2.map twiceFailMsg).Nodup :=
    List.Nodup.sublist (List.Sublist.map twiceFailMsg hqsub) hmsgs
  have herrmem : ∀ m, Event.logError m ∈ (RC.test_login res1 res2 data).1 →
      ∃ (jq : Nat) (hjq : jq < (RC.firstPassAux res1 data 0).2.length),
        m = twiceFailMsg ((RC.firstPassAux res1 data 0).2.get ⟨jq, hjq⟩) ∧
        (res2 jq).isOk = false := by
    intro m hm
    rw [RC.test_login_trace] at hm
    rcases List.mem_append.mp hm with hm | hm
    · exact absurd hm (logError_not_mem_map_nav m data)
    · obtain ⟨jq, hjq, hmsg, hres⟩ := RC.secondPassAux_logError_mem res2 _ m 0 hm
      rw [Nat.zero_add] at hres
      exact ⟨jq, hjq, hmsg, hres⟩
  refine ⟨?_, herrmem, ?_, ?_⟩
  · intro m hm
    rw [RC.test_login_trace] at hm
    rcases List.mem_append.mp hm with hm | hm
    · exact logInfo_not_mem_map_nav m data hm
    · exact RC.secondPassAux_no_logInfo res2 _ m 0 hm
  · intro j h hok hm
    obtain ⟨jq, hjq, hmsg, -⟩ := herrmem _ hm
    have hmemq : (RC.firstPassAux res1 data 0).2.get ⟨jq, hjq⟩
        ∈ (RC.firstPassAux res1 data 0).2 := List.get_mem _ jq hjq
    have hmemd : (RC.firstPassAux res1 data 0).2.get ⟨jq, hjq⟩ ∈ data :=
      hqsub.subset hmemq
    have heq : data.get ⟨j, h⟩ = (RC.firstPassAux res1 data 0).2.get ⟨jq, hjq⟩ :=
      List.inj_on_of_nodup_map hmsgs (List.get_mem data j h) hmemd hmsg
    have hcnt := RC.firstPassAux_queue_count res1 data hnd 0 j h
    rw [Nat.zero_add, if_pos hok] at hcnt
    exact absurd (heq ▸ hmemq) (List.count_eq_zero.mp hcnt)
  · intro jq hjq hok hm
    obtain ⟨jq', hjq', hmsg, hres⟩ := herrmem _ hm
    have heq : (RC.firstPassAux res1 data 0).2.get ⟨jq, hjq⟩
        = (RC.firstPassAux res1 data 0).2.get ⟨jq', hjq'⟩ :=
      List.inj_on_of_nodup_map hqmsgnd (List.get_mem _ jq hjq)
        (List.get_mem _ jq' hjq') hmsg
    have hidx : (⟨jq, hjq⟩ : Fin (RC.firstPassAux res1 data 0).2.length)
        = ⟨jq', hjq'⟩ := (List.Nodup.get_inj_iff hqnd).mp heq
    have : jq = jq' := congrArg Fin.val hidx
    rw [← this] at hres
    rw [hok] at hres
    exact Bool.noConfusion hres

/-- **C8** witness: with a verified record, no log line at all. -/
theorem C8_witness :
    Event.logInfo "start" ∉ (RC.test_login (fun _ => AttemptResult.ok)
        (fun _ => AttemptResult.ok) [recA]).1 ∧
    Event.logError (twiceFailMsg recA) ∉ (RC.test_login
        (fun _ => AttemptResult.ok) (fun _ => AttemptResult.ok) [recA]).1 := by
  have h := C8_no_success_logging (fun _ => AttemptResult.ok)
    (fun _ => AttemptResult.ok) [recA] (by simp) (by simp)
  refine ⟨h.1 "start", ?_⟩
  have h3 := h.2.2.1 0 (by decide) rfl
  simpa using h3

/-- **C9** (confirmed).  One Chrome session is acquired in `setUp` and
none in the test body; `driver.quit()` runs exactly once, in
`tearDown`, which `unittest` executes after the body whether the body
completed or aborted after emitting any prefix of its trace.  In every
such run the trace holds exactly one `acquire` and one `quit`, the
`quit` after everything the body emitted. -/
theorem C9_session_lifecycle :
    ∀ (res1 res2 : Nat → AttemptResult) (data : List Record)
      (aborted rest : List Event),
      aborted ++ rest = (RC.test_login res1 res2 data).1 →
      (RC.runTestCase aborted).count Event.acquire = 1 ∧
      (RC.runTestCase aborted).count Event.quit = 1 ∧
      ∃ pre, RC.runTestCase aborted = pre ++ RC.tearDownEvents ∧
        Event.quit ∉ pre ∧ Event.acquire ∈ pre := by
  intro res1 res2 data aborted rest habort
  have hsub : ∀ e ∈ aborted, e ∈ (RC.test_login res1 res2 data).1 := by
    intro e he
    rw [← habort]
    exact List.mem_append_left rest he
  have hnoacq : Event.acquire ∉ aborted := by
    intro hmem
    rcases RC.test_login_body_events res1 res2 data _ (hsub _ hmem) with
      ⟨r, hr⟩ | ⟨m, hm⟩
    · exact Event.noConfusion hr
    · exact Event.noConfusion hm
  have hnoquit : Event.quit ∉ aborted := by
    intro hmem
    rcases RC.test_login_body_events res1 res2 data _ (hsub _ hmem) with
      ⟨r, hr⟩ | ⟨m, hm⟩
    · exact Event.noConfusion hr
    · exact Event.noConfusion hm
  refine ⟨?_, ?_, ?_⟩
  · simp [RC.runTestCase, RC.setUpEvents, RC.tearDownEvents,
      List.count_append, List.count_eq_zero.mpr hnoacq]
  · simp [RC.runTestCase, RC.setUpEvents, RC.tearDownEvents,
      List.count_append, List.count_eq_zero.mpr hnoquit]
  · refine ⟨RC.setUpEvents ++ aborted, ?_, ?_, ?_⟩
    · simp [RC.runTestCase, List.append_assoc]
    · intro hmem
      rcases List.mem_append.mp hmem with hmem | hmem
      · simp [RC.setUpEvents] at hmem
      · exact hnoquit hmem
    · refine List.mem_append_left aborted ?_
      simp [RC.setUpEvents]

/-- **C9** witness: the empty-body run (empty input, no abort). -/
theorem C9_witness :
    (RC.runTestCase []).count Event.acquire = 1 ∧
    (RC.runTestCase []).count Event.quit = 1 := by
  have h := C9_session_lifecycle (fun _ => AttemptResult.ok)
    (fun _ => AttemptResult.ok) [] [] [] rfl
  exact ⟨h.1, h.2.1⟩

/-- **C10** counterexample: with the illegal selector `"2"`, the first
record fails its pre-mode stages on pass 1 and is deferred; the second
record reaches the mode check, which breaks the loop.  On the retry
pass the deferred record's navigation fails again and it is logged as a
terminal failure — so a deferred record does NOT complete the retry
pass "without any assertion or failure" as the claim states. -/
theorem C10_counterexample :
    Event.logError (twiceFailMsg recA)
      ∈ (Resolve.testlogin "2" (fun i => decide (i = 1)) (fun _ => true)
          (fun _ => false) (fun _ => true) [recA, recB]).1 := by
  decide

/-- **C10** (corrected).  In the interactive variant with an illegal
mode selector: on the first pass the runner prints "illegal input" and
breaks at the first record whose pre-mode stages (navigation, title
assertion, login) succeed — every later record is left unattempted and
unqueued, while the earlier records, which all failed their pre-mode
stages, are queued; on the retry pass the mode-specific verification
check never runs, so the pass behaves exactly like the plain second
pass driven by the pre-mode outcome alone: a deferred record completes
without failure when its pre-mode stages succeed, and is logged as a
terminal failure when they fail again. -/
theorem C10_illegal_selector :
    ∀ (gray : String) (pre1 mode1 pre2 mode2 : Nat → Bool),
      gray ≠ "0" → gray ≠ "1" →
      (∀ (data : List Record) (k : Nat), k < data.length →
        pre1 k = true → (∀ j, j < k → pre1 j = false) →
        (Resolve.pass1 gray pre1 mode1 data 0).1
            = (data.take (k+1)).map Event.nav
              ++ [Event.printed "illegal input"] ∧
          (Resolve.pass1 gray pre1 mode1 data 0).2 = data.take k) ∧
      (∀ (q : List Record) (i : Nat),
        Resolve.pass2 gray pre2 mode2 q i
          = RC.secondPassAux (Resolve.preOnly pre2) q i) ∧
      (∀ (q : List Record), (∀ j, j < q.length → pre2 j = true) →
        Resolve.pass2 gray pre2 mode2 q 0 = q.map Event.nav) := by
  intro gray pre1 mode1 pre2 mode2 hg0 hg1
  refine ⟨?_, ?_, ?_⟩
  · intro data k hk hpre hbefore
    exact Resolve.pass1_illegal_break gray pre1 mode1 hg0 hg1 data 0 k hk
      (by rw [Nat.zero_add]; exact hpre)
      (fun j hj => by rw [Nat.zero_add]; exact hbefore j hj)
  · exact fun q i => Resolve.pass2_illegal gray pre2 mode2 hg0 hg1 q i
  · intro q hall
    rw [Resolve.pass2_illegal gray pre2 mode2 hg0 hg1 q 0]
    refine RC.secondPassAux_all_ok (Resolve.preOnly pre2) q 0 ?_
    intro j hj
    rw [Nat.zero_add]
    simp [Resolve.preOnly, hall j hj, AttemptResult.isOk]

/-- **C10** witness: with selector `"2"` and pre-mode stages
succeeding, pass 1 attempts only the first record, prints the notice,
and queues nothing. -/
theorem C10_witness :
    (Resolve.pass1 "2" (fun _ => true) (fun _ => true) [recA, recB] 0).1
      = [Event.nav recA, Event.printed "illegal input"] ∧
    (Resolve.pass1 "2" (fun _ => true) (fun _ => true) [recA, recB] 0).2
      = [] := by
  have h := (C10_illegal_selector "2" (fun _ => true) (fun _ => true)
    (fun _ => true) (fun _ => true) (by decide) (by decide)).1 [recA, recB]
    0 (by decide) rfl (fun j hj => absurd hj (Nat.not_lt_zero j))
  exact ⟨by simpa using h.1, by simpa using h.2⟩
